import Mathlib

/-!
Verification of the todoTist server core (`TodoServer` in the Go source:
`validateTaskText`, `AddTask`, `GetTasks`, `DeleteTask`, `generateID`)
as a shallow embedding in Lean 4.

Modelling conventions:
* A Go `string` is a Lean `String`; `len` counts characters of `s.data`.
* `strings.TrimSpace` is `goTrim`, dropping leading/trailing whitespace
  characters (the ASCII whitespace class used by Go's `unicode.IsSpace`).
* The Go `map[string]*todov1.Task` is an association list `Store` whose
  keys are unique; map access, insert and delete are `mlookup`, cons and
  `mapDelete`.  Go's randomized map iteration order is modelled by
  quantifying over permutations of the store where order matters.
* `crypto/rand` is modelled by passing the stream of random draws as an
  explicit argument: `generateID` takes the eight numbers below 62 that
  `rand.Int(rand.Reader, 62)` returns, and `AddTask` takes the list of
  draws for its successive `generateID()` calls.
* `time.Now().Unix()` is an explicit `now : Int` argument.
* A `connect.NewError(code, err)` pair is a `ConnectError`.
-/

namespace TodoTist

/-- `todov1.Task`: the wire task record `{Id, Text, CreatedAt}`. -/
structure Task where
  id : String
  text : String
  createdAt : Int
deriving DecidableEq, Repr

/-- The contents of the `tasks` map of `TodoServer`, as an association
list from id to task (key uniqueness is the `Inv` invariant below). -/
abbrev Store := List (String × Task)

/-- The connect error codes the server uses. -/
inductive ConnectCode where
  | invalidArgument
  | notFound
  | internal
deriving DecidableEq, Repr

/-- The sentinel `error` values of the source (`ErrTaskTextEmpty`,
`ErrTaskTextTooLong`, `ErrTaskNotFound`, `ErrInvalidTaskID`) plus the
inline `fmt.Errorf("failed to generate unique task ID")`. -/
inductive TaskErr where
  | taskTextEmpty
  | taskTextTooLong
  | taskNotFound
  | invalidTaskID
  | uniqueIDFailed
deriving DecidableEq, Repr

/-- `connect.NewError(code, err)`. -/
structure ConnectError where
  code : ConnectCode
  err : TaskErr
deriving DecidableEq, Repr

/-- `MaxTaskTextLength = 500`. -/
def MaxTaskTextLength : Nat := 500

/-- `MinTaskTextLength = 1`. -/
def MinTaskTextLength : Nat := 1

/-- The ASCII whitespace characters recognised by Go's `unicode.IsSpace`
(the inputs of interest are ASCII). -/
def isSpace (c : Char) : Bool :=
  c = ' ' || c = '\t' || c = '\n' || c = '\r' ||
  c = Char.ofNat 11 || c = Char.ofNat 12

/-- `strings.TrimSpace` on the character list: drop leading whitespace,
then trailing whitespace. -/
def trimSpace (l : List Char) : List Char :=
  ((l.dropWhile isSpace).reverse.dropWhile isSpace).reverse

/-- `strings.TrimSpace` on strings. -/
def goTrim (s : String) : String :=
  String.mk (trimSpace s.data)

/-- Go map read `s.tasks[k]`. -/
def mlookup (s : Store) (k : String) : Option Task :=
  match s with
  | [] => none
  | p :: rest => if p.1 = k then some p.2 else mlookup rest k

/-- Go `delete(s.tasks, k)`. -/
def mapDelete (s : Store) (k : String) : Store :=
  s.filter (fun p => p.1 ≠ k)

/-- `validateTaskText`: trim, then check the length bounds.  Returns the
error the source returns, or `none` when the text is valid. -/
def validateTaskText (text : String) : Option TaskErr :=
  if (goTrim text).length < MinTaskTextLength then some TaskErr.taskTextEmpty
  else if (goTrim text).length > MaxTaskTextLength then some TaskErr.taskTextTooLong
  else none

/-- The 62-symbol charset of `generateID`. -/
def charset : List Char :=
  "abcdefghijklmnopqrstuvwxyzABCDEFGHIJKLMNOPQRSTUVWXYZ0123456789".data

/-- `generateID`: builds an 8-character string, character `i` being
`charset[n_i]` for the `i`-th draw `n_i` of `rand.Int(rand.Reader, 62)`
(the `% 62` encodes that `rand.Int` yields a value below 62; missing
draws default to 0). -/
def generateID (rs : List Nat) : String :=
  String.mk ((List.range 8).map (fun i => charset.getD (rs.getD i 0 % 62) 'a'))

/-- The retry loop of `AddTask`: `for i := 0; i < 10; i++` over the
candidate ids, inserting at the first id not in the map, and failing
with `Internal` when the attempts are exhausted.  `txt` is the already
trimmed text and `now` the timestamp. -/
def addTaskAttempts (s : Store) (txt : String) (now : Int) :
    List String → Except ConnectError (Task × Store)
  | [] => Except.error ⟨ConnectCode.internal, TaskErr.uniqueIDFailed⟩
  | id :: rest =>
    let task : Task := ⟨id, txt, now⟩
    match mlookup s id with
    | some _ => addTaskAttempts s txt now rest
    | none => Except.ok (task, (id, task) :: s)

/-- `TodoServer.AddTask`: validate, then run up to 10 id-generation
attempts.  `rnd` is the stream of `rand.Int` draw lists consumed by the
successive `generateID()` calls. -/
def addTask (s : Store) (text : String) (rnd : List (List Nat)) (now : Int) :
    Except ConnectError (Task × Store) :=
  match validateTaskText text with
  | some e => Except.error ⟨ConnectCode.invalidArgument, e⟩
  | none => addTaskAttempts s (goTrim text) now ((rnd.take 10).map generateID)

/-- The store after an `AddTask` call (unchanged when it errors). -/
def addTaskState (s : Store) (text : String) (rnd : List (List Nat)) (now : Int) :
    Store :=
  match addTask s text rnd now with
  | Except.ok (_, s2) => s2
  | Except.error _ => s

/-- The comparator passed to `sort.Slice` in `GetTasks`:
`tasks[i].CreatedAt > tasks[j].CreatedAt`.  The sort itself is modelled
by insertion sort with this comparator; ties keep their iteration
order, which is what `sort.Slice`'s insertion sort does on the small
slices the theorems below evaluate it on. -/
def insertDesc (t : Task) : List Task → List Task
  | [] => [t]
  | u :: us => if u.createdAt > t.createdAt then u :: insertDesc t us else t :: u :: us

/-- Sorting by `CreatedAt` descending, as `GetTasks` does. -/
def sortByCreatedAtDesc : List Task → List Task
  | [] => []
  | t :: ts => insertDesc t (sortByCreatedAtDesc ts)

/-- `TodoServer.GetTasks`: collect the tasks in the map's iteration
order `iter` (Go randomizes it; callers quantify over permutations of
the store) and sort by `CreatedAt` descending.  Always returns `ok`. -/
def getTasks (iter : Store) : Except ConnectError (List Task) :=
  Except.ok (sortByCreatedAtDesc (iter.map Prod.snd))

/-- `TodoServer.DeleteTask`: reject a blank id, look the (untrimmed) id
up, and remove it, answering `Success: true`. -/
def deleteTask (s : Store) (id : String) : Except ConnectError (Bool × Store) :=
  if goTrim id = "" then
    Except.error ⟨ConnectCode.invalidArgument, TaskErr.invalidTaskID⟩
  else
    match mlookup s id with
    | none => Except.error ⟨ConnectCode.notFound, TaskErr.taskNotFound⟩
    | some _ => Except.ok (true, mapDelete s id)

/-- The store after a `DeleteTask` call (unchanged when it errors). -/
def deleteTaskState (s : Store) (id : String) : Store :=
  match deleteTask s id with
  | Except.ok (_, s2) => s2
  | Except.error _ => s

/-- The keys of the store (the Go map's key set, as a list). -/
def keys (s : Store) : List String := s.map Prod.fst

/-- The store invariant: keys are unique, each task's `id` is the key it
is stored under, and its text is whitespace-trimmed of length within
`[MinTaskTextLength, MaxTaskTextLength]`. -/
def Inv (s : Store) : Prop :=
  (keys s).Nodup ∧
  ∀ p ∈ s, p.2.id = p.1 ∧ goTrim p.2.text = p.2.text ∧
    MinTaskTextLength ≤ p.2.text.length ∧ p.2.text.length ≤ MaxTaskTextLength

/-- One client operation against the server, with the ambient inputs
(random draws, clock) made explicit. -/
inductive Op where
  | add (text : String) (rnd : List (List Nat)) (now : Int)
  | get
  | delete (id : String)

/-- The store after one operation. -/
def step (s : Store) : Op → Store
  | Op.add text rnd now => addTaskState s text rnd now
  | Op.get => s
  | Op.delete id => deleteTaskState s id

/-- The store reached from the fresh server (`NewTodoServer`, an empty
map) by a sequence of operations. -/
def run (ops : List Op) : Store := ops.foldl step []

/-! ### Helper lemmas about trimming and strings -/

theorem trimSpace_def (l : List Char) :
    trimSpace l = List.rdropWhile isSpace (List.dropWhile isSpace l) := rfl

theorem dropWhile_head_false (p : Char → Bool) :
    ∀ (l : List Char) (c : Char) (rest : List Char),
      List.dropWhile p l = c :: rest → p c = false := by
  intro l
  induction l with
  | nil => intro c rest h; simp [List.dropWhile] at h
  | cons a as ih =>
    intro c rest h
    cases hpa : p a with
    | true => simp [List.dropWhile, hpa] at h; exact ih c rest h
    | false => simp [List.dropWhile, hpa] at h; rw [← h.1]; exact hpa

theorem dropWhile_trimSpace (l : List Char) :
    List.dropWhile isSpace (trimSpace l) = trimSpace l := by
  have hpre : ∃ t, trimSpace l ++ t = List.dropWhile isSpace l :=
    List.rdropWhile_prefix isSpace (List.dropWhile isSpace l)
  obtain ⟨t, ht⟩ := hpre
  cases hm : trimSpace l with
  | nil => simp
  | cons c cs =>
    rw [hm] at ht
    have hd : List.dropWhile isSpace l = c :: (cs ++ t) := by
      rw [← ht]; rfl
    have hc := dropWhile_head_false isSpace l c (cs ++ t) hd
    simp [List.dropWhile, hc]

theorem trimSpace_trimSpace (l : List Char) :
    trimSpace (trimSpace l) = trimSpace l := by
  rw [trimSpace_def (trimSpace l), dropWhile_trimSpace, trimSpace_def l]
  exact List.rdropWhile_idempotent _ _

theorem trimSpace_eq_self (l : List Char) (h : ∀ c ∈ l, isSpace c = false) :
    trimSpace l = l := by
  have h1 : List.dropWhile isSpace l = l := by
    rw [List.dropWhile_eq_self_iff]
    intro hl
    rw [h (l.get ⟨0, hl⟩) (List.get_mem l 0 hl)]
    simp
  rw [trimSpace_def, h1]
  rw [List.rdropWhile_eq_self_iff]
  intro hl
  rw [h (l.getLast hl) (List.getLast_mem hl)]
  simp

theorem goTrim_goTrim (s : String) : goTrim (goTrim s) = goTrim s :=
  congrArg String.mk (trimSpace_trimSpace s.data)

theorem goTrim_eq_self (s : String) (h : ∀ c ∈ s.data, isSpace c = false) :
    goTrim s = s := by
  cases s with
  | mk data =>
    show String.mk (trimSpace data) = String.mk data
    rw [trimSpace_eq_self data h]

theorem string_eq_empty_of_length_eq_zero (s : String) (h : s.length = 0) :
    s = "" := by
  cases s with
  | mk data =>
    cases data with
    | nil => rfl
    | cons c cs => simp [String.length] at h

/-! ### Helper lemmas about the store -/

theorem mlookup_eq_none_iff (s : Store) (k : String) :
    mlookup s k = none ↔ ∀ p ∈ s, p.1 ≠ k := by
  induction s with
  | nil => simp [mlookup]
  | cons p rest ih =>
    by_cases h : p.1 = k <;> simp [mlookup, h, ih]

theorem mem_mapDelete (s : Store) (k : String) (p : String × Task) :
    p ∈ mapDelete s k ↔ p ∈ s ∧ p.1 ≠ k := by
  simp [mapDelete, List.mem_filter]

theorem mlookup_mapDelete_self (s : Store) (k : String) :
    mlookup (mapDelete s k) k = none := by
  rw [mlookup_eq_none_iff]
  intro p hp
  exact ((mem_mapDelete s k p).mp hp).2

theorem keys_mapDelete_sublist (s : Store) (k : String) :
    List.Sublist (keys (mapDelete s k)) (keys s) :=
  List.Sublist.map Prod.fst (List.filter_sublist s)

theorem validateTaskText_eq_none_iff (text : String) :
    validateTaskText text = none ↔
      MinTaskTextLength ≤ (goTrim text).length ∧
        (goTrim text).length ≤ MaxTaskTextLength := by
  simp only [validateTaskText, MinTaskTextLength, MaxTaskTextLength]
  split_ifs with h1 h2 <;> simp <;> omega

/-! ### Helper lemmas about AddTask -/

theorem addTaskAttempts_ok_exists (s : Store) (txt : String) (now : Int) :
    ∀ cands, (∃ c ∈ cands, mlookup s c = none) →
      ∃ t s2, addTaskAttempts s txt now cands = Except.ok (t, s2) ∧
        t.text = txt ∧ t.createdAt = now ∧ t.id ∈ cands ∧
        mlookup s t.id = none ∧ s2 = (t.id, t) :: s := by
  intro cands
  induction cands with
  | nil => intro h; simp at h
  | cons c rest ih =>
    intro h
    cases hc : mlookup s c with
    | none =>
      refine ⟨⟨c, txt, now⟩, (c, ⟨c, txt, now⟩) :: s, ?_, rfl, rfl, ?_, ?_, rfl⟩
      · simp [addTaskAttempts, hc]
      · simp
      · exact hc
    | some t0 =>
      have hstep : addTaskAttempts s txt now (c :: rest) =
          addTaskAttempts s txt now rest := by
        simp [addTaskAttempts, hc]
      obtain ⟨c', hc', hl⟩ := h
      have hmem : c' ∈ rest := by
        rcases List.mem_cons.mp hc' with h' | h'
        · subst h'; rw [hc] at hl; exact Option.noConfusion hl
        · exact h'
      obtain ⟨t, s2, h1, h2, h3, h4, h5, h6⟩ := ih ⟨c', hmem, hl⟩
      exact ⟨t, s2, by rw [hstep]; exact h1, h2, h3,
        List.mem_cons_of_mem _ h4, h5, h6⟩

theorem addTaskAttempts_ok_inv (s : Store) (txt : String) (now : Int) :
    ∀ cands t s2, addTaskAttempts s txt now cands = Except.ok (t, s2) →
      t.text = txt ∧ t.createdAt = now ∧ t.id ∈ cands ∧
        mlookup s t.id = none ∧ s2 = (t.id, t) :: s := by
  intro cands
  induction cands with
  | nil => intro t s2 h; simp [addTaskAttempts] at h
  | cons c rest ih =>
    intro t s2 h
    cases hc : mlookup s c with
    | some t0 =>
      have hstep : addTaskAttempts s txt now (c :: rest) =
          addTaskAttempts s txt now rest := by
        simp [addTaskAttempts, hc]
      rw [hstep] at h
      obtain ⟨h2, h3, h4, h5, h6⟩ := ih t s2 h
      exact ⟨h2, h3, List.mem_cons_of_mem _ h4, h5, h6⟩
    | none =>
      have hstep : addTaskAttempts s txt now (c :: rest) =
          Except.ok (⟨c, txt, now⟩, (c, ⟨c, txt, now⟩) :: s) := by
        simp [addTaskAttempts, hc]
      rw [hstep] at h
      obtain ⟨h1, h2⟩ := Prod.mk.inj (Except.ok.inj h)
      subst h1
      subst h2
      exact ⟨rfl, rfl, by simp, hc, rfl⟩

theorem addTaskAttempts_error_code (s : Store) (txt : String) (now : Int) :
    ∀ cands ce, addTaskAttempts s txt now cands = Except.error ce →
      ce = ⟨ConnectCode.internal, TaskErr.uniqueIDFailed⟩ := by
  intro cands
  induction cands with
  | nil =>
    intro ce h
    simp [addTaskAttempts] at h
    exact h.symm
  | cons c rest ih =>
    intro ce h
    cases hc : mlookup s c with
    | some t0 =>
      have hstep : addTaskAttempts s txt now (c :: rest) =
          addTaskAttempts s txt now rest := by
        simp [addTaskAttempts, hc]
      rw [hstep] at h
      exact ih ce h
    | none => simp [addTaskAttempts, hc] at h

theorem addTaskAttempts_all_collide (s : Store) (txt : String) (now : Int) :
    ∀ cands, (∀ c ∈ cands, mlookup s c ≠ none) →
      addTaskAttempts s txt now cands =
        Except.error ⟨ConnectCode.internal, TaskErr.uniqueIDFailed⟩ := by
  intro cands
  induction cands with
  | nil => intro _; rfl
  | cons c rest ih =>
    intro h
    cases hc : mlookup s c with
    | none => exact absurd hc (h c (by simp))
    | some t0 =>
      have hstep : addTaskAttempts s txt now (c :: rest) =
          addTaskAttempts s txt now rest := by
        simp [addTaskAttempts, hc]
      rw [hstep]
      exact ih (fun c' hc' => h c' (List.mem_cons_of_mem _ hc'))

theorem addTask_ok_inv (s : Store) (text : String) (rnd : List (List Nat))
    (now : Int) (t : Task) (s2 : Store)
    (h : addTask s text rnd now = Except.ok (t, s2)) :
    validateTaskText text = none ∧ t.text = goTrim text ∧ t.createdAt = now ∧
      t.id ∈ (rnd.take 10).map generateID ∧ mlookup s t.id = none ∧
      s2 = (t.id, t) :: s := by
  cases hv : validateTaskText text with
  | some e => simp [addTask, hv] at h
  | none =>
    simp only [addTask, hv] at h
    obtain ⟨h2, h3, h4, h5, h6⟩ :=
      addTaskAttempts_ok_inv s (goTrim text) now ((rnd.take 10).map generateID) t s2 h
    exact ⟨rfl, h2, h3, h4, h5, h6⟩

/-! ### Helper lemmas about generateID -/

theorem generateID_length (rs : List Nat) : (generateID rs).length = 8 := by
  show ((List.range 8).map _).length = 8
  simp

theorem generateID_ne_empty (rs : List Nat) : generateID rs ≠ "" := by
  intro h
  have h8 := generateID_length rs
  rw [h] at h8
  exact absurd h8 (by decide)

theorem charset_getD_mem (n : Nat) : charset.getD (n % 62) 'a' ∈ charset := by
  have hlt : n % 62 < charset.length := by
    have h62 : n % 62 < 62 := Nat.mod_lt _ (by decide)
    have hc : charset.length = 62 := by decide
    omega
  rw [List.getD_eq_getElem charset 'a' hlt]
  exact List.getElem_mem hlt

theorem generateID_mem_charset (rs : List Nat) :
    ∀ c ∈ (generateID rs).data, c ∈ charset := by
  intro c hc
  have hdata : (generateID rs).data =
      (List.range 8).map (fun i => charset.getD (rs.getD i 0 % 62) 'a') := rfl
  rw [hdata] at hc
  simp only [List.mem_map] at hc
  obtain ⟨i, _, hi⟩ := hc
  rw [← hi]
  exact charset_getD_mem _

theorem charset_no_space : ∀ c ∈ charset, isSpace c = false := by decide

theorem goTrim_generateID (rs : List Nat) :
    goTrim (generateID rs) = generateID rs :=
  goTrim_eq_self _ (fun c hc => charset_no_space c (generateID_mem_charset rs c hc))

/-! ### Helper lemmas about sorting -/

theorem insertDesc_perm (t : Task) :
    ∀ l : List Task, (insertDesc t l).Perm (t :: l) := by
  intro l
  induction l with
  | nil => exact List.Perm.refl _
  | cons u us ih =>
    simp only [insertDesc]
    split
    · exact (List.Perm.cons u ih).trans (List.Perm.swap t u us)
    · exact List.Perm.refl _

theorem sortByCreatedAtDesc_perm :
    ∀ l : List Task, (sortByCreatedAtDesc l).Perm l := by
  intro l
  induction l with
  | nil => exact List.Perm.refl _
  | cons t ts ih =>
    exact (insertDesc_perm t (sortByCreatedAtDesc ts)).trans (List.Perm.cons t ih)

theorem mem_sortByCreatedAtDesc (l : List Task) (u : Task) :
    u ∈ sortByCreatedAtDesc l ↔ u ∈ l :=
  (sortByCreatedAtDesc_perm l).mem_iff

/-! ### Claim theorems -/

/-- Claim C1: for every input text whose trimmed form is non-empty and
at most 500 characters, provided some generated candidate id among the
10 attempts is fresh (true with overwhelming probability for the
crypto-random stream) and the clock reading is non-zero, `AddTask`
succeeds and returns a task whose text is the trimmed input, whose id
is non-empty, whose `createdAt` is non-zero, and which is present in
the store afterwards. -/
theorem addTask_valid_text_ok (s : Store) (text : String)
    (rnd : List (List Nat)) (now : Int)
    (hne : goTrim text ≠ "") (hlen : (goTrim text).length ≤ 500)
    (hfresh : ∃ c ∈ (rnd.take 10).map generateID, mlookup s c = none)
    (hnow : now ≠ 0) :
    ∃ t s2, addTask s text rnd now = Except.ok (t, s2) ∧
      t.text = goTrim text ∧ t.id ≠ "" ∧ t.createdAt ≠ 0 ∧
      mlookup s2 t.id = some t := by
  have hv : validateTaskText text = none := by
    rw [validateTaskText_eq_none_iff]
    have h0 : (goTrim text).length ≠ 0 :=
      fun h0 => hne (string_eq_empty_of_length_eq_zero _ h0)
    simp only [MinTaskTextLength, MaxTaskTextLength]
    omega
  obtain ⟨t, s2, h1, h2, h3, h4, h5, h6⟩ :=
    addTaskAttempts_ok_exists s (goTrim text) now ((rnd.take 10).map generateID) hfresh
  refine ⟨t, s2, ?_, h2, ?_, ?_, ?_⟩
  · simp only [addTask, hv]
    exact h1
  · obtain ⟨rs, _, hrs⟩ := List.mem_map.mp h4
    rw [← hrs]
    exact generateID_ne_empty rs
  · rw [h3]; exact hnow
  · rw [h6]; simp [mlookup]

/-- Witness for C1 at a concrete input. -/
theorem addTask_valid_text_ok_witness :
    ∃ t s2, addTask [] "  Buy milk " [[0, 0, 0, 0, 0, 0, 0, 0]] 5 =
        Except.ok (t, s2) ∧
      t.text = goTrim "  Buy milk " ∧ t.id ≠ "" ∧ t.createdAt ≠ 0 ∧
      mlookup s2 t.id = some t :=
  addTask_valid_text_ok [] "  Buy milk " [[0, 0, 0, 0, 0, 0, 0, 0]] 5
    (by decide) (by decide) (by decide) (by decide)

/-- Claim C2: `AddTask` fails with `InvalidArgument` exactly when the
trimmed text length is below 1 or above 500 (so trimmed length 500
passes validation and blank text does not), and a validation failure
leaves the store unchanged. -/
theorem addTask_invalidArgument_iff (s : Store) (text : String)
    (rnd : List (List Nat)) (now : Int) :
    ((∃ e, addTask s text rnd now =
        Except.error ⟨ConnectCode.invalidArgument, e⟩) ↔
      ((goTrim text).length < 1 ∨ (goTrim text).length > 500)) ∧
    (∀ e, addTask s text rnd now =
        Except.error ⟨ConnectCode.invalidArgument, e⟩ →
      addTaskState s text rnd now = s) := by
  constructor
  · constructor
    · rintro ⟨e, he⟩
      by_contra hlen
      push_neg at hlen
      have hv : validateTaskText text = none := by
        rw [validateTaskText_eq_none_iff]
        simp only [MinTaskTextLength, MaxTaskTextLength]
        omega
      simp only [addTask, hv] at he
      have hcode := addTaskAttempts_error_code s (goTrim text) now _ _ he
      simp at hcode
    · intro hlen
      have hv : validateTaskText text ≠ none := by
        rw [Ne, validateTaskText_eq_none_iff]
        simp only [MinTaskTextLength, MaxTaskTextLength]
        omega
      cases hvv : validateTaskText text with
      | none => exact absurd hvv hv
      | some e => exact ⟨e, by simp [addTask, hvv]⟩
  · intro e he
    unfold addTaskState
    rw [he]

/-- Witness for C2 at a concrete input. -/
theorem addTask_invalidArgument_iff_witness :
    addTaskState [] "   " [] 0 = [] :=
  (addTask_invalidArgument_iff [] "   " [] 0).2 TaskErr.taskTextEmpty rfl

/-- Claim C3 is refuted by the code: the same two-task store (the two
listed association lists are permutations of each other, i.e. the same
map iterated in two orders, both of which Go's randomized map
iteration can produce) makes `GetTasks` return the two
equal-`createdAt` tasks in different orders, so consecutive calls with
no intervening mutation need not agree. -/
theorem getTasks_tie_order_iteration_dependent :
    ([(("a" : String), (⟨"a", "x", 5⟩ : Task)), ("b", ⟨"b", "y", 5⟩)] : Store).Perm
        [("b", ⟨"b", "y", 5⟩), ("a", ⟨"a", "x", 5⟩)] ∧
      getTasks [("a", ⟨"a", "x", 5⟩), ("b", ⟨"b", "y", 5⟩)] ≠
        getTasks [("b", ⟨"b", "y", 5⟩), ("a", ⟨"a", "x", 5⟩)] := by
  constructor
  · exact List.Perm.swap _ _ _
  · intro h
    have h2 : sortByCreatedAtDesc [⟨"a", "x", 5⟩, ⟨"b", "y", 5⟩] =
        sortByCreatedAtDesc [⟨"b", "y", 5⟩, ⟨"a", "x", 5⟩] := Except.ok.inj h
    exact absurd h2 (by decide)

/-- Claim C4: candidate ids are fixed-length 8-character strings over
the 62-symbol alphanumeric charset, built from the random stream; a
colliding candidate is retried with a fresh one, at most 10 candidates
are consumed, and when every attempt collides `AddTask` fails with an
`Internal` error and the store is unchanged. -/
theorem generateID_shape_and_collision_exhaustion
    (rs : List Nat) (s : Store) (text : String) (rnd : List (List Nat))
    (now : Int) (hv : validateTaskText text = none)
    (hcol : ∀ c ∈ (rnd.take 10).map generateID, mlookup s c ≠ none) :
    ((generateID rs).length = 8 ∧ (∀ c ∈ (generateID rs).data, c ∈ charset) ∧
      charset.length = 62) ∧
    ((rnd.take 10).map generateID).length ≤ 10 ∧
    addTask s text rnd now =
      Except.error ⟨ConnectCode.internal, TaskErr.uniqueIDFailed⟩ ∧
    addTaskState s text rnd now = s := by
  refine ⟨⟨generateID_length rs, generateID_mem_charset rs, by decide⟩, ?_, ?_, ?_⟩
  · rw [List.length_map]
    exact List.length_take_le 10 rnd
  · simp only [addTask, hv]
    exact addTaskAttempts_all_collide s (goTrim text) now _ hcol
  · unfold addTaskState
    simp only [addTask, hv]
    rw [addTaskAttempts_all_collide s (goTrim text) now _ hcol]

/-- Witness for C4 at a concrete input: the single candidate
`"aaaaaaaa"` collides with the stored task, so the call fails
`Internal` and the store stays as it was. -/
theorem generateID_shape_and_collision_exhaustion_witness :
    ((generateID [0, 0, 0, 0, 0, 0, 0, 0]).length = 8 ∧
      (∀ c ∈ (generateID [0, 0, 0, 0, 0, 0, 0, 0]).data, c ∈ charset) ∧
      charset.length = 62) ∧
    (([[0, 0, 0, 0, 0, 0, 0, 0]].take 10).map generateID).length ≤ 10 ∧
    addTask [("aaaaaaaa", ⟨"aaaaaaaa", "t", 1⟩)] "hi"
        [[0, 0, 0, 0, 0, 0, 0, 0]] 2 =
      Except.error ⟨ConnectCode.internal, TaskErr.uniqueIDFailed⟩ ∧
    addTaskState [("aaaaaaaa", ⟨"aaaaaaaa", "t", 1⟩)] "hi"
        [[0, 0, 0, 0, 0, 0, 0, 0]] 2 =
      [("aaaaaaaa", ⟨"aaaaaaaa", "t", 1⟩)] :=
  generateID_shape_and_collision_exhaustion [0, 0, 0, 0, 0, 0, 0, 0]
    [("aaaaaaaa", ⟨"aaaaaaaa", "t", 1⟩)] "hi" [[0, 0, 0, 0, 0, 0, 0, 0]] 2
    rfl (by decide)

/-- Claim C5: deleting the id returned by a successful `AddTask`
succeeds with `success = true` and removes the task — any later
`GetTasks` (whatever iteration order the map yields) no longer
contains that id — and a second `DeleteTask` with the same id fails
with `NotFound`.  The hypothesis that stored tasks carry their key as
id holds in every reachable store (claim C7). -/
theorem deleteTask_after_addTask (s : Store) (text : String)
    (rnd : List (List Nat)) (now : Int) (t : Task) (s2 : Store)
    (hids : ∀ p ∈ s, p.2.id = p.1)
    (hadd : addTask s text rnd now = Except.ok (t, s2)) :
    ∃ s3, deleteTask s2 t.id = Except.ok (true, s3) ∧
      mlookup s3 t.id = none ∧
      (∀ iter : Store, iter.Perm s3 →
        ∀ l, getTasks iter = Except.ok l → ∀ u ∈ l, u.id ≠ t.id) ∧
      deleteTask s3 t.id =
        Except.error ⟨ConnectCode.notFound, TaskErr.taskNotFound⟩ := by
  obtain ⟨hv, htext, hts, hidmem, hfresh, hs2⟩ := addTask_ok_inv s text rnd now t s2 hadd
  obtain ⟨rs, _, hrs⟩ := List.mem_map.mp hidmem
  have htrim : goTrim t.id = t.id := by
    rw [← hrs]; exact goTrim_generateID rs
  have hne : goTrim t.id ≠ "" := by
    rw [htrim, ← hrs]; exact generateID_ne_empty rs
  have hlook2 : mlookup s2 t.id = some t := by
    rw [hs2]; simp [mlookup]
  have hdel : deleteTask s2 t.id = Except.ok (true, mapDelete s2 t.id) := by
    unfold deleteTask
    rw [if_neg hne, hlook2]
  refine ⟨mapDelete s2 t.id, hdel, mlookup_mapDelete_self s2 t.id, ?_, ?_⟩
  · intro iter hperm l hl u hu
    have hl2 : l = sortByCreatedAtDesc (iter.map Prod.snd) := (Except.ok.inj hl).symm
    rw [hl2, mem_sortByCreatedAtDesc] at hu
    obtain ⟨p, hp, hpu⟩ := List.mem_map.mp hu
    obtain ⟨hp2, hpk⟩ := (mem_mapDelete s2 t.id p).mp (hperm.mem_iff.mp hp)
    rw [hs2] at hp2
    rcases List.mem_cons.mp hp2 with heq | hmem
    · exact absurd (congrArg Prod.fst heq) hpk
    · rw [← hpu, hids p hmem]
      exact hpk
  · unfold deleteTask
    rw [if_neg hne, mlookup_mapDelete_self s2 t.id]

/-- Witness for C5 at a concrete input. -/
theorem deleteTask_after_addTask_witness :
    ∃ s3, deleteTask [("aaaaaaaa", ⟨"aaaaaaaa", "hi", 1⟩)] "aaaaaaaa" =
        Except.ok (true, s3) ∧
      mlookup s3 "aaaaaaaa" = none ∧
      (∀ iter : Store, iter.Perm s3 →
        ∀ l, getTasks iter = Except.ok l → ∀ u ∈ l, u.id ≠ "aaaaaaaa") ∧
      deleteTask s3 "aaaaaaaa" =
        Except.error ⟨ConnectCode.notFound, TaskErr.taskNotFound⟩ :=
  deleteTask_after_addTask [] "hi" [[0, 0, 0, 0, 0, 0, 0, 0]] 1
    ⟨"aaaaaaaa", "hi", 1⟩ [("aaaaaaaa", ⟨"aaaaaaaa", "hi", 1⟩)]
    (by simp) rfl

/-- Claim C6: `DeleteTask` fails with `InvalidArgument` when the
trimmed id is empty, with `NotFound` when the (trimmed-non-empty) id
is absent from the store, and either failure leaves the store
unchanged. -/
theorem deleteTask_failure_cases (s : Store) (id : String) :
    (goTrim id = "" →
      deleteTask s id =
          Except.error ⟨ConnectCode.invalidArgument, TaskErr.invalidTaskID⟩ ∧
        deleteTaskState s id = s) ∧
    (goTrim id ≠ "" → mlookup s id = none →
      deleteTask s id =
          Except.error ⟨ConnectCode.notFound, TaskErr.taskNotFound⟩ ∧
        deleteTaskState s id = s) := by
  constructor
  · intro h
    have hd : deleteTask s id =
        Except.error ⟨ConnectCode.invalidArgument, TaskErr.invalidTaskID⟩ := by
      unfold deleteTask
      rw [if_pos h]
    exact ⟨hd, by unfold deleteTaskState; rw [hd]⟩
  · intro h hl
    have hd : deleteTask s id =
        Except.error ⟨ConnectCode.notFound, TaskErr.taskNotFound⟩ := by
      unfold deleteTask
      rw [if_neg h, hl]
    exact ⟨hd, by unfold deleteTaskState; rw [hd]⟩

/-- Witness for C6 at concrete inputs: a blank id and a never-issued
id against the empty store. -/
theorem deleteTask_failure_cases_witness :
    (deleteTask [] "  " =
        Except.error ⟨ConnectCode.invalidArgument, TaskErr.invalidTaskID⟩ ∧
      deleteTaskState [] "  " = []) ∧
    (deleteTask [] "x" =
        Except.error ⟨ConnectCode.notFound, TaskErr.taskNotFound⟩ ∧
      deleteTaskState [] "x" = []) :=
  ⟨(deleteTask_failure_cases [] "  ").1 rfl,
   (deleteTask_failure_cases [] "x").2 (by decide) rfl⟩

/-! ### Invariant preservation (claim C7) -/

theorem inv_nil : Inv ([] : Store) := by
  constructor
  · exact List.nodup_nil
  · intro p hp
    simp at hp

theorem inv_addTaskState (s : Store) (text : String) (rnd : List (List Nat))
    (now : Int) (h : Inv s) : Inv (addTaskState s text rnd now) := by
  unfold addTaskState
  cases ha : addTask s text rnd now with
  | error e => exact h
  | ok ts =>
    obtain ⟨t, s2⟩ := ts
    show Inv s2
    obtain ⟨hv, htext, _, _, hfresh, hs2⟩ := addTask_ok_inv s text rnd now t s2 ha
    subst hs2
    obtain ⟨hnodup, hprops⟩ := h
    constructor
    · show (t.id :: keys s).Nodup
      rw [List.nodup_cons]
      refine ⟨?_, hnodup⟩
      intro hmem
      obtain ⟨p, hp, hpk⟩ := List.mem_map.mp hmem
      exact (mlookup_eq_none_iff s t.id).mp hfresh p hp hpk
    · intro p hp
      rcases List.mem_cons.mp hp with heq | hp2
      · subst heq
        refine ⟨rfl, ?_, ?_, ?_⟩
        · show goTrim t.text = t.text
          rw [htext]
          exact goTrim_goTrim text
        · show MinTaskTextLength ≤ t.text.length
          rw [htext]
          exact ((validateTaskText_eq_none_iff text).mp hv).1
        · show t.text.length ≤ MaxTaskTextLength
          rw [htext]
          exact ((validateTaskText_eq_none_iff text).mp hv).2
      · exact hprops p hp2

theorem deleteTask_ok_inv (s : Store) (id : String) (b : Bool) (s2 : Store)
    (h : deleteTask s id = Except.ok (b, s2)) :
    b = true ∧ s2 = mapDelete s id := by
  unfold deleteTask at h
  by_cases h1 : goTrim id = ""
  · rw [if_pos h1] at h
    exact absurd h (by simp)
  · rw [if_neg h1] at h
    cases hl : mlookup s id with
    | none =>
      rw [hl] at h
      exact absurd h (by simp)
    | some t0 =>
      rw [hl] at h
      obtain ⟨hb, hs⟩ := Prod.mk.inj (Except.ok.inj h)
      exact ⟨hb.symm, hs.symm⟩

theorem inv_mapDelete (s : Store) (k : String) (h : Inv s) :
    Inv (mapDelete s k) := by
  obtain ⟨hnodup, hprops⟩ := h
  constructor
  · exact List.Sublist.nodup (keys_mapDelete_sublist s k) hnodup
  · intro p hp
    exact hprops p ((mem_mapDelete s k p).mp hp).1

theorem inv_deleteTaskState (s : Store) (id : String) (h : Inv s) :
    Inv (deleteTaskState s id) := by
  unfold deleteTaskState
  cases hd : deleteTask s id with
  | error e => exact h
  | ok bs =>
    obtain ⟨b, s2⟩ := bs
    show Inv s2
    obtain ⟨_, hs2⟩ := deleteTask_ok_inv s id b s2 hd
    rw [hs2]
    exact inv_mapDelete s id h

theorem inv_step (s : Store) (op : Op) (h : Inv s) : Inv (step s op) := by
  cases op with
  | add text rnd now => exact inv_addTaskState s text rnd now h
  | get => exact h
  | delete id => exact inv_deleteTaskState s id h

/-- Claim C7: in every store reachable from the fresh server by any
sequence of `AddTask`, `GetTasks` and `DeleteTask` calls, keys are
unique, every task's id equals its key, and every task's text is
whitespace-trimmed with length in `[1, 500]`. -/
theorem run_preserves_store_invariant (ops : List Op) : Inv (run ops) := by
  have hgen : ∀ (l : List Op) (s : Store), Inv s → Inv (l.foldl step s) := by
    intro l
    induction l with
    | nil => intro s h; exact h
    | cons op rest ih =>
      intro s h
      exact ih (step s op) (inv_step s op h)
  exact hgen ops [] inv_nil

/-- Claim C8: `GetTasks` never returns an error: it returns `ok` for
every store iteration, and the empty store yields the empty list. -/
theorem getTasks_never_fails :
    (∀ iter : Store, ∃ l, getTasks iter = Except.ok l) ∧
      getTasks ([] : Store) = Except.ok ([] : List Task) :=
  ⟨fun iter => ⟨sortByCreatedAtDesc (iter.map Prod.snd), rfl⟩, rfl⟩

/-- Claim C10: `DeleteTask` looks the id up without trimming it: an id
carrying surrounding whitespace (so it differs from its trimmed form)
is reported `NotFound` and nothing is deleted, even when its trimmed
form is a key of the store, the store's keys being whitespace-free as
generated ids are. -/
theorem deleteTask_untrimmed_lookup (s : Store) (id : String)
    (hws : goTrim id ≠ id) (hne : goTrim id ≠ "")
    (hkeys : ∀ p ∈ s, goTrim p.1 = p.1)
    (hmem : ∃ p ∈ s, p.1 = goTrim id) :
    deleteTask s id =
        Except.error ⟨ConnectCode.notFound, TaskErr.taskNotFound⟩ ∧
      deleteTaskState s id = s := by
  have _hm := hmem
  have hl : mlookup s id = none := by
    rw [mlookup_eq_none_iff]
    intro p hp heq
    apply hws
    rw [← heq]
    exact hkeys p hp
  have hd : deleteTask s id =
      Except.error ⟨ConnectCode.notFound, TaskErr.taskNotFound⟩ := by
    unfold deleteTask
    rw [if_neg hne, hl]
  exact ⟨hd, by unfold deleteTaskState; rw [hd]⟩

/-- Witness for C10 at a concrete input: the store holds id `"ab"`,
and deleting `" ab"` is `NotFound` with the store untouched. -/
theorem deleteTask_untrimmed_lookup_witness :
    deleteTask [("ab", ⟨"ab", "x", 1⟩)] " ab" =
        Except.error ⟨ConnectCode.notFound, TaskErr.taskNotFound⟩ ∧
      deleteTaskState [("ab", ⟨"ab", "x", 1⟩)] " ab" =
        [("ab", ⟨"ab", "x", 1⟩)] :=
  deleteTask_untrimmed_lookup [("ab", ⟨"ab", "x", 1⟩)] " ab"
    (by decide) (by decide) (by decide) (by decide)

end TodoTist
